import Mathlib

/-!
Shallow embedding of the QWERTY Piano component (src/QwertyPiano.tsx).

The component keeps its musical state in React state/refs; we collect those
fields in a single `PianoState` record and translate each handler into a pure
state transformer.  Wall-clock reads (`performance.now()`) become explicit
rational-number arguments.  Web-Audio node graphs are not modelled; a `Voice`
keeps the data the constructor derives from its arguments (the midi number the
caller computed the frequency from, the two oscillator types, the volume), and
a ghost `releasedVoices` field on the state records every voice on which
`release()` was invoked.  `Voice.freq` recovers the frequency the source
passes to the constructor (`midiToFreq midi`).

The source often uppercases a key string that is already uppercased
(`handleDown` passes `k = e.key.toUpperCase()` to `startNote`, which
uppercases again); since `toUpperCase` is idempotent we instead pass the raw
key string to the callee that normalises it, which yields the same behaviour.
Likewise the two `performance.now()` calls inside `pushRecord` are modelled as
a single instant, the event's capture time.
-/

namespace QwertyPiano

/-- JS `String.prototype.toUpperCase`, for the ASCII key strings the component
handles: uppercase every character.  (Stated over the string's character list
so that the kernel can evaluate it.) -/
def upcase (s : String) : String := String.mk (s.data.map Char.toUpper)

/-- The four oscillator waveforms offered by the waveform select control. -/
inductive Waveform where
  | sine
  | triangle
  | square
  | sawtooth
deriving DecidableEq, Repr

/-- Semitone offsets from C for the key mapping (source `KEY_TO_OFFSET`).
An unmapped key yields `none` (JS `undefined`). -/
def KEY_TO_OFFSET (k : String) : Option ℤ :=
  if k = "A" then some 0
  else if k = "W" then some 1
  else if k = "S" then some 2
  else if k = "E" then some 3
  else if k = "D" then some 4
  else if k = "F" then some 5
  else if k = "T" then some 6
  else if k = "G" then some 7
  else if k = "Y" then some 8
  else if k = "H" then some 9
  else if k = "U" then some 10
  else if k = "J" then some 11
  else if k = "K" then some 12
  else if k = "O" then some 13
  else if k = "L" then some 14
  else if k = "P" then some 15
  else if k = ";" then some 16
  else if k = "\x27" then some 17
  else none

/-- Source `midiToFreq`: `440 * Math.pow(2, (midi - 69) / 12)` (A4 = 440 Hz,
MIDI 69), read over the reals. -/
noncomputable def midiToFreq (midi : ℤ) : ℝ :=
  440 * (2 : ℝ) ^ (((midi : ℝ) - 69) / 12)

/-- Source `keyToMidi`, with the `octave` React state passed explicitly:
`12 * (octave + 1) + KEY_TO_OFFSET[key.toUpperCase()]`, `null` when the key is
unmapped. -/
def keyToMidiAt (octave : ℤ) (key : String) : Option ℤ :=
  match KEY_TO_OFFSET (upcase key) with
  | none => none
  | some off => some (12 * (octave + 1) + off)

/-- The frequency the Pitch Mapper assigns to a key at a given octave. -/
noncomputable def pitch (key : String) (octave : ℤ) : Option ℝ :=
  (keyToMidiAt octave key).map midiToFreq

/-- One sounding note (source `class Voice`).  The constructor receives
`freq = midiToFreq midi`, a waveform and a volume; we keep the midi number
(`Voice.freq` recovers the frequency), the two oscillator types the
constructor sets (`osc2` is triangle when the waveform is sine, else the
waveform itself) and the volume.  `releasing` records that the gain ramp of
`release()` has been scheduled; `ended` is the source's `ended` flag set by
`stop()`. -/
structure Voice where
  midi : ℤ
  osc1Type : Waveform
  osc2Type : Waveform
  volume : ℚ
  releasing : Bool
  ended : Bool
deriving DecidableEq, Repr

/-- The `Voice` constructor: capture the arguments, set
`osc2.type = waveform === "sine" ? "triangle" : waveform`. -/
def Voice.create (midi : ℤ) (waveform : Waveform) (volume : ℚ) : Voice :=
  { midi := midi
    osc1Type := waveform
    osc2Type := if waveform = Waveform.sine then Waveform.triangle else waveform
    volume := volume
    releasing := false
    ended := false }

/-- The frequency the source passes to the `Voice` constructor. -/
noncomputable def Voice.freq (v : Voice) : ℝ := midiToFreq v.midi

/-- `Voice.release`: no-op once ended, otherwise schedule the gain ramp to
silence (and a delayed `stop`). -/
def Voice.release (v : Voice) : Voice :=
  if v.ended then v else { v with releasing := true }

/-- `Voice.stop`: no-op once ended, otherwise mark the voice ended. -/
def Voice.stop (v : Voice) : Voice :=
  if v.ended then v else { v with ended := true }

/-- A key transition kind (`"down" | "up"`). -/
inductive EvType where
  | down
  | up
deriving DecidableEq, Repr

/-- A recorded event `{ key, type, t }` plus the `__scheduled` flag that
`playRecording` attaches to the event object in place (absent = falsy =
`false`). -/
structure RecEvent where
  key : String
  type : EvType
  t : ℚ
  scheduled : Bool
deriving DecidableEq, Repr

/-- Lookup in the `activeVoices` map (JS `Map.get` / `Map.has`). -/
def findVoice (k : String) : List (String × Voice) → Option Voice
  | [] => none
  | (k₂, v) :: rest => if k₂ = k then some v else findVoice k rest

/-- JS `Map.set`: replace the binding when the key is present, else append. -/
def setVoice (k : String) (v : Voice) : List (String × Voice) → List (String × Voice)
  | [] => [(k, v)]
  | (k₂, v₂) :: rest => if k₂ = k then (k, v) :: rest else (k₂, v₂) :: setVoice k v rest

/-- JS `Map.delete`: remove the binding for the key. -/
def removeKey (k : String) : List (String × Voice) → List (String × Voice)
  | [] => []
  | (k₂, v₂) :: rest => if k₂ = k then removeKey k rest else (k₂, v₂) :: removeKey k rest

/-- How many bindings the map holds for a key (a JS `Map` keeps at most one;
the model's lists can be arbitrary, so we count). -/
def countKey (k : String) : List (String × Voice) → ℕ
  | [] => 0
  | (k₂, _) :: rest => (if k₂ = k then 1 else 0) + countKey k rest

/-- The component's musical state: the React state hooks (`octave`,
`sustain`, `volume`, `waveform`, `isRecording`, `recording`), the refs
(`activeVoices`, `downSet`, `recordStartRef`), and the ghost list of voices
that have been released. -/
structure PianoState where
  octave : ℤ
  sustain : Bool
  volume : ℚ
  waveform : Waveform
  activeVoices : List (String × Voice)
  downSet : List String
  isRecording : Bool
  recording : List RecEvent
  recordStart : Option ℚ
  releasedVoices : List Voice
deriving DecidableEq, Repr

/-- The initial volume `0.35`, written in lowest terms `7/20` as an explicit
numerator/denominator pair so that states stay kernel-evaluable. -/
def initVolume : ℚ := ⟨7, 20, by norm_num, by norm_num⟩

/-- The initial state of the component (`useState` defaults):
octave 4, sustain off, volume 0.35, sine waveform, everything else empty. -/
def initState : PianoState :=
  { octave := 4
    sustain := false
    volume := initVolume
    waveform := Waveform.sine
    activeVoices := []
    downSet := []
    isRecording := false
    recording := []
    recordStart := none
    releasedVoices := [] }

/-- Source `startNote`: no-op when a voice is already active for the key or
the key is unmapped; otherwise create a `Voice` from the current
configuration, store it in `activeVoices` and highlight the key. -/
def startNote (key : String) (st : PianoState) : PianoState :=
  let k := upcase key
  if (findVoice k st.activeVoices).isSome then st
  else
    match keyToMidiAt st.octave key with
    | none => st
    | some midi =>
      let voice := Voice.create midi st.waveform st.volume
      { st with
        activeVoices := setVoice k voice st.activeVoices
        downSet := st.downSet.insert k }

/-- Source `stopNote`: no-op when no voice is active for the key; when
`sustain` is set, defer (the comment says "defer stop until sustain
released") leaving the state untouched; otherwise release the voice, drop it
from `activeVoices` and unhighlight the key. -/
def stopNote (key : String) (st : PianoState) : PianoState :=
  let k := upcase key
  match findVoice k st.activeVoices with
  | none => st
  | some voice =>
    if st.sustain then st
    else
      { st with
        activeVoices := removeKey k st.activeVoices
        downSet := st.downSet.erase k
        releasedVoices := st.releasedVoices ++ [voice.release] }

/-- Source `allNotesOff`: release every active voice, clear the map and all
highlights.  It never consults `sustain`. -/
def allNotesOff (st : PianoState) : PianoState :=
  { st with
    activeVoices := []
    downSet := []
    releasedVoices := st.releasedVoices ++ st.activeVoices.map (fun kv => kv.2.release) }

/-- React `setSustain` (space bar toggle / checkbox): this is the entire
sustain-change handling in the source — only the flag changes. -/
def setSustain (b : Bool) (st : PianoState) : PianoState :=
  { st with sustain := b }

/-- React `setOctave` (the UI clamps to 1..8 before calling it). -/
def setOctave (o : ℤ) (st : PianoState) : PianoState :=
  { st with octave := o }

/-- React `setWaveform`. -/
def setWaveform (w : Waveform) (st : PianoState) : PianoState :=
  { st with waveform := w }

/-- React `setVolume`. -/
def setVolume (v : ℚ) (st : PianoState) : PianoState :=
  { st with volume := v }

/-- Source `pushRecord`: the session start timestamp is established by the
first captured event (`recordStartRef.current ?? (recordStartRef.current =
performance.now())`), and the event is appended with offset
`capture time - start timestamp`.  The two clock reads inside the function
are modelled as the single instant `now`. -/
def pushRecord (key : String) (type : EvType) (now : ℚ) (st : PianoState) : PianoState :=
  let t₀ := st.recordStart.getD now
  { st with
    recordStart := some t₀
    recording := st.recording ++ [{ key := upcase key, type := type, t := now - t₀, scheduled := false }] }

/-- Source `startRecording`: discard the previous session's events, clear the
start timestamp, switch recording on. -/
def startRecording (st : PianoState) : PianoState :=
  { st with recording := [], recordStart := none, isRecording := true }

/-- Source `stopRecording`. -/
def stopRecording (st : PianoState) : PianoState :=
  { st with isRecording := false }

/-- Source `handleDown` (keydown): space toggles sustain; `]` / `[` step the
octave within 1..8; a mapped key starts its note and, while recording, a
"down" event is captured (after `startNote`). -/
def handleDown (key : String) (now : ℚ) (st : PianoState) : PianoState :=
  let k := upcase key
  if k = " " then { st with sustain := !st.sustain }
  else
    let st₁ := if k = "]" then { st with octave := min 8 (st.octave + 1) } else st
    let st₂ := if k = "[" then { st₁ with octave := max 1 (st₁.octave - 1) } else st₁
    if (KEY_TO_OFFSET k).isSome then
      let st₃ := startNote key st₂
      if st₃.isRecording then pushRecord key EvType.down now st₃ else st₃
    else st₂

/-- Source `handleUp` (keyup): for a mapped key, capture an "up" event while
recording (before `stopNote`), then stop the note. -/
def handleUp (key : String) (now : ℚ) (st : PianoState) : PianoState :=
  let k := upcase key
  if (KEY_TO_OFFSET k).isSome then
    let st₁ := if st.isRecording then pushRecord key EvType.up now st else st
    stopNote key st₁
  else st

/-- One capture during a recording session: a key, a transition and the
wall-clock instant it happened. -/
structure Capture where
  key : String
  type : EvType
  now : ℚ
deriving DecidableEq, Repr

/-- A whole recording session: `startRecording` followed by one `pushRecord`
per capture. -/
def recordSession (st : PianoState) (caps : List Capture) : PianoState :=
  caps.foldl (fun s c => pushRecord c.key c.type c.now s) (startRecording st)

/-- Dispatch one replayed event into the voice manager: "down" events call
`startNote`, "up" events call `stopNote`. -/
def dispatchEvent (e : RecEvent) (st : PianoState) : PianoState :=
  match e.type with
  | EvType.down => startNote e.key st
  | EvType.up => stopNote e.key st

/-- One pass of the `sched` closure inside `playRecording` at elapsed time
`now`: walk the recorded events in order and, for each one not yet scheduled
whose offset satisfies `ev.t <= now + 5`, set its `__scheduled` flag and
dispatch it.  (The source's first `forEach`, which writes `false` over a
falsy flag, is the identity here.)  Returns the updated event list, the
updated state, and the list of events dispatched during the pass. -/
def schedPass (now : ℚ) : List RecEvent → PianoState → List RecEvent × PianoState × List RecEvent
  | [], st => ([], st, [])
  | e :: rest, st =>
    if e.scheduled = false ∧ e.t ≤ now + 5 then
      let st₂ := dispatchEvent e st
      let out := schedPass now rest st₂
      ({ e with scheduled := true } :: out.1, out.2.1, e :: out.2.2)
    else
      let out := schedPass now rest st
      (e :: out.1, out.2.1, out.2.2)

/-- The polling loop of `playRecording`: run one `sched` pass per check,
`checks` being the elapsed times `performance.now() - start` at which the
animation frames fire.  Returns the final state and every dispatched event
tagged with the elapsed time of the pass that dispatched it. -/
def runSched : List ℚ → PianoState → PianoState × List (ℚ × RecEvent)
  | [], st => (st, [])
  | now :: rest, st =>
    let pass := schedPass now st.recording st
    let st₂ := { pass.2.1 with recording := pass.1 }
    let out := runSched rest st₂
    (out.1, pass.2.2.map (fun e => (now, e)) ++ out.2)

/-- Source `playRecording`: a no-op on an empty recording, otherwise the
polling loop over the given check times. -/
def playRecording (checks : List ℚ) (st : PianoState) : PianoState × List (ℚ × RecEvent) :=
  if st.recording.isEmpty then (st, []) else runSched checks st

/-! Concrete states used to exercise the theorems below on closed inputs. -/

/-- The state after pressing `A` from the initial state. -/
def stateA : PianoState := startNote "A" initState

/-- The voice that press creates: C4 (midi 60), sine/triangle pair, volume 0.35. -/
def voiceA : Voice := Voice.create 60 Waveform.sine initVolume

/-- `stateA` with recording switched on. -/
def stateARec : PianoState := { stateA with isRecording := true }

/-- A state holding a two-event recording: `A` down at offset 0, up at offset 3. -/
def stateRec03 : PianoState :=
  { initState with
    recording := [⟨"A", EvType.down, 0, false⟩, ⟨"A", EvType.up, 3, false⟩] }

/-- A state holding a one-event recording: `A` down at offset 0. -/
def stateRec0 : PianoState :=
  { initState with recording := [⟨"A", EvType.down, 0, false⟩] }

/-- The volume `0.5`, in kernel-evaluable lowest terms. -/
def halfVolume : ℚ := ⟨1, 2, by norm_num, by norm_num⟩

/-- A first capture: `A` goes down at wall-clock time 100. -/
def captureA0 : Capture := ⟨"A", EvType.down, 100⟩

/-- The rest of that session: `A` comes up at wall-clock time 300. -/
def capturesRest : List Capture := [⟨"A", EvType.up, 300⟩]

/-! Helper lemmas about the `activeVoices` map. -/

lemma findVoice_setVoice_self (k : String) (v : Voice) (l : List (String × Voice)) :
    findVoice k (setVoice k v l) = some v := by
  induction l with
  | nil => simp [setVoice, findVoice]
  | cons kv rest ih =>
    obtain ⟨k₂, v₂⟩ := kv
    by_cases h : k₂ = k
    · simp [setVoice, h, findVoice]
    · simp [setVoice, h, findVoice, ih]

lemma countKey_eq_zero {k : String} {l : List (String × Voice)}
    (h : findVoice k l = none) : countKey k l = 0 := by
  induction l with
  | nil => simp [countKey]
  | cons kv rest ih =>
    obtain ⟨k₂, v₂⟩ := kv
    by_cases hk : k₂ = k
    · simp [findVoice, hk] at h
    · simp [findVoice, hk] at h
      simp [countKey, hk, ih h]

lemma countKey_setVoice_of_none {k : String} {l : List (String × Voice)} (v : Voice)
    (h : findVoice k l = none) : countKey k (setVoice k v l) = 1 := by
  induction l with
  | nil => simp [setVoice, countKey]
  | cons kv rest ih =>
    obtain ⟨k₂, v₂⟩ := kv
    by_cases hk : k₂ = k
    · simp [findVoice, hk] at h
    · simp [findVoice, hk] at h
      simp [setVoice, countKey, hk, ih h]

/-! Helper lemmas about `startNote`. -/

lemma startNote_active {key : String} {st : PianoState}
    (h : (findVoice (upcase key) st.activeVoices).isSome) :
    startNote key st = st := by
  simp [startNote, h]

lemma startNote_unmapped {key : String} {st : PianoState}
    (h : KEY_TO_OFFSET (upcase key) = none) :
    startNote key st = st := by
  by_cases ha : (findVoice (upcase key) st.activeVoices).isSome
  · simp [startNote, ha]
  · simp [startNote, ha, keyToMidiAt, h]

lemma startNote_fresh {key : String} {st : PianoState} {m : ℤ}
    (h₁ : findVoice (upcase key) st.activeVoices = none)
    (h₂ : keyToMidiAt st.octave key = some m) :
    startNote key st =
      { st with
        activeVoices := setVoice (upcase key) (Voice.create m st.waveform st.volume) st.activeVoices
        downSet := st.downSet.insert (upcase key) } := by
  simp [startNote, h₁, h₂]

/-! Helper lemmas about `midiToFreq`. -/

lemma midiToFreq_pos (m : ℤ) : 0 < midiToFreq m := by
  unfold midiToFreq
  positivity

lemma midiToFreq_add_twelve (m : ℤ) : midiToFreq (m + 12) = 2 * midiToFreq m := by
  unfold midiToFreq
  have h : (((m + 12 : ℤ) : ℝ) - 69) / 12 = ((m : ℝ) - 69) / 12 + 1 := by
    push_cast
    ring
  rw [h, Real.rpow_add (by norm_num : (0 : ℝ) < 2), Real.rpow_one]
  ring

/-! Helper lemmas about the recorder. -/

lemma pushRecord_of_started {st : PianoState} {t₀ : ℚ} (key : String) (ty : EvType) (now : ℚ)
    (h : st.recordStart = some t₀) :
    pushRecord key ty now st =
      { st with
        recordStart := some t₀
        recording := st.recording ++ [⟨upcase key, ty, now - t₀, false⟩] } := by
  simp [pushRecord, h]

lemma foldl_pushRecord_of_started (t₀ : ℚ) :
    ∀ (caps : List Capture) (st : PianoState), st.recordStart = some t₀ →
      (caps.foldl (fun s c => pushRecord c.key c.type c.now s) st).recording
        = st.recording ++ caps.map (fun c => ⟨upcase c.key, c.type, c.now - t₀, false⟩) ∧
      (caps.foldl (fun s c => pushRecord c.key c.type c.now s) st).recordStart = some t₀ := by
  intro caps
  induction caps with
  | nil =>
    intro st h
    exact ⟨by simp, h⟩
  | cons c rest ih =>
    intro st h
    rw [List.foldl_cons, pushRecord_of_started c.key c.type c.now h]
    obtain ⟨ha, hb⟩ :=
      ih { st with
             recordStart := some t₀
             recording := st.recording ++ [⟨upcase c.key, c.type, c.now - t₀, false⟩] } rfl
    refine ⟨?_, hb⟩
    rw [ha]
    simp

/-! Helper lemmas about the playback scheduler. -/

lemma schedPass_fired_le (now : ℚ) :
    ∀ (evs : List RecEvent) (st : PianoState), ∀ e ∈ (schedPass now evs st).2.2, e.t ≤ now + 5 := by
  intro evs
  induction evs with
  | nil =>
    intro st e he
    simp [schedPass] at he
  | cons e₀ rest ih =>
    intro st e he
    by_cases hc : e₀.scheduled = false ∧ e₀.t ≤ now + 5
    · simp only [schedPass, if_pos hc] at he
      rcases List.mem_cons.mp he with h | h
      · exact h ▸ hc.2
      · exact ih _ e h
    · simp only [schedPass, if_neg hc] at he
      exact ih _ e he

lemma runSched_fired_le :
    ∀ (checks : List ℚ) (st : PianoState), ∀ p ∈ (runSched checks st).2, p.2.t ≤ p.1 + 5 := by
  intro checks
  induction checks with
  | nil =>
    intro st p hp
    simp [runSched] at hp
  | cons now rest ih =>
    intro st p hp
    simp only [runSched] at hp
    rcases List.mem_append.mp hp with h | h
    · obtain ⟨e, he, rfl⟩ := List.mem_map.mp h
      exact schedPass_fired_le now _ st e he
    · exact ih _ p h

lemma schedPass_all_scheduled (now : ℚ) :
    ∀ (evs : List RecEvent) (st : PianoState), (∀ e ∈ evs, e.scheduled = true) →
      schedPass now evs st = (evs, st, []) := by
  intro evs
  induction evs with
  | nil =>
    intro st _
    rfl
  | cons e rest ih =>
    intro st h
    have he : e.scheduled = true := h e (List.mem_cons_self e rest)
    have hc : ¬(e.scheduled = false ∧ e.t ≤ now + 5) := by simp [he]
    have hr := ih st (fun x hx => h x (List.mem_cons_of_mem e hx))
    simp only [schedPass, if_neg hc, hr]

lemma runSched_all_scheduled :
    ∀ (checks : List ℚ) (st : PianoState), (∀ e ∈ st.recording, e.scheduled = true) →
      runSched checks st = (st, []) := by
  intro checks
  induction checks with
  | nil =>
    intro st _
    rfl
  | cons now rest ih =>
    intro st h
    have hp := schedPass_all_scheduled now st.recording st h
    simp [runSched, hp, ih st h]

lemma playRecording_all_scheduled (checks : List ℚ) (st : PianoState)
    (h : ∀ e ∈ st.recording, e.scheduled = true) :
    (playRecording checks st).2 = [] := by
  unfold playRecording
  by_cases hemp : st.recording.isEmpty
  · simp [hemp]
  · simp [hemp, runSched_all_scheduled checks st h]

/-! The claims. -/

/-- C1: with sustain on, `noteOn('A')` then `noteOff('A')` leaves the voice in
the active set — but the second half of the claim fails on the code: toggling
sustain off afterwards is just `setSustain(false)`, which only flips the flag.
Evaluated at the failing input, the voice for `A` is still in the active set
after sustain is cleared, the whole state changed only in the `sustain` field,
and `release` was never invoked on any voice — even though `stopNote`'s own
comment promises to "defer stop until sustain released". -/
theorem C1_sustain_toggle_never_releases :
    ((findVoice "A" (stopNote "A" (startNote "A" (setSustain true initState))).activeVoices).isSome
      = true) ∧
    setSustain false (stopNote "A" (startNote "A" (setSustain true initState)))
      = { startNote "A" (setSustain true initState) with sustain := false } ∧
    ((findVoice "A" (setSustain false
        (stopNote "A" (startNote "A" (setSustain true initState)))).activeVoices).isSome = true) ∧
    (setSustain false (stopNote "A" (startNote "A" (setSustain true initState)))).releasedVoices
      = [] := by
  decide

/-- C2, counterexample to the claim as stated: playing the recording
`[A down at 0ms, A up at 3ms]` with the first scheduling check at elapsed time
0 dispatches the `up` event at elapsed time 0, strictly before its recorded
offset 3, because the scheduler fires every event with `t ≤ now + 5`. -/
theorem C2_claim_counterexample :
    ¬ ∀ p ∈ (playRecording [0] stateRec03).2, p.2.t ≤ p.1 := by
  norm_num [playRecording, runSched, schedPass, dispatchEvent, startNote, stopNote,
    keyToMidiAt, KEY_TO_OFFSET, findVoice, setVoice, removeKey, Voice.create, Voice.release,
    initState, stateRec03, show upcase "A" = "A" from by decide]

/-- C2, amended: an event can be dispatched up to the scheduler's 5 ms
lookahead before its recorded offset, but never more: whenever playback
dispatches event `e` at elapsed time `τ`, `e.t ≤ τ + 5`. -/
theorem C2_dispatch_within_lookahead (st : PianoState) (checks : List ℚ)
    (τ : ℚ) (e : RecEvent) (h : (τ, e) ∈ (playRecording checks st).2) :
    e.t ≤ τ + 5 := by
  unfold playRecording at h
  by_cases hemp : st.recording.isEmpty
  · simp [hemp] at h
  · rw [if_neg hemp] at h
    exact runSched_fired_le checks st (τ, e) h

/-- C2, witness: the amended bound evaluated on the dispatch of the `up`
event of `stateRec03` at elapsed time 0. -/
theorem C2_dispatch_within_lookahead_witness :
    (⟨"A", EvType.up, 3, false⟩ : RecEvent).t ≤ 0 + 5 :=
  C2_dispatch_within_lookahead stateRec03 [0] 0 ⟨"A", EvType.up, 3, false⟩ (by
    norm_num [playRecording, runSched, schedPass, dispatchEvent, startNote, stopNote,
      keyToMidiAt, KEY_TO_OFFSET, findVoice, setVoice, removeKey, Voice.create, Voice.release,
      initState, stateRec03, show upcase "A" = "A" from by decide])

/-- C3: for every mapped key and octave in the valid range 1..8, the pitch an
octave up exists, is twice the pitch at the current octave, and is strictly
larger; pitch is `midiToFreq` (equal temperament anchored at 440 Hz) of
`12 * (octave + 1) + offset(key)`. -/
theorem C3_pitch_octave_doubling (k : String) (o : ℤ)
    (hk : (KEY_TO_OFFSET (upcase k)).isSome) (_h₁ : 1 ≤ o) (_h₈ : o ≤ 8) :
    ∃ p q : ℝ, pitch k o = some p ∧ pitch k (o + 1) = some q ∧
      0 < p ∧ q = 2 * p ∧ p < q := by
  obtain ⟨off, hoff⟩ := Option.isSome_iff_exists.mp hk
  have hp := midiToFreq_pos (12 * (o + 1) + off)
  have hq : midiToFreq (12 * (o + 1 + 1) + off) = 2 * midiToFreq (12 * (o + 1) + off) := by
    rw [show 12 * (o + 1 + 1) + off = 12 * (o + 1) + off + 12 from by ring, midiToFreq_add_twelve]
  refine ⟨midiToFreq (12 * (o + 1) + off), midiToFreq (12 * (o + 1 + 1) + off),
    ?_, ?_, hp, hq, ?_⟩
  · simp [pitch, keyToMidiAt, hoff]
  · simp [pitch, keyToMidiAt, hoff]
  · rw [hq]
    linarith

/-- C3, witness: the key `A` at octave 4. -/
theorem C3_pitch_octave_doubling_witness :
    ∃ p q : ℝ, pitch "A" 4 = some p ∧ pitch "A" (4 + 1) = some q ∧
      0 < p ∧ q = 2 * p ∧ p < q :=
  C3_pitch_octave_doubling "A" 4 (by decide) (by decide) (by decide)

/-- C4: `noteOn` is idempotent per key while the key is active: a repeated
`startNote` when a voice already exists for the key leaves the state untouched
(no new voice, existing voice unchanged), two consecutive `startNote`s equal
one, and from a silent state two consecutive `startNote`s on a mapped key
yield exactly one active voice for that key. -/
theorem C4_noteOn_idempotent (key : String) (st : PianoState) :
    ((findVoice (upcase key) st.activeVoices).isSome → startNote key st = st) ∧
    startNote key (startNote key st) = startNote key st ∧
    (findVoice (upcase key) st.activeVoices = none → (KEY_TO_OFFSET (upcase key)).isSome →
      countKey (upcase key) (startNote key (startNote key st)).activeVoices = 1) := by
  refine ⟨fun h => startNote_active h, ?_, ?_⟩
  · cases hB : (findVoice (upcase key) st.activeVoices).isSome with
    | true =>
      rw [startNote_active hB]
      exact startNote_active hB
    | false =>
      have hN : findVoice (upcase key) st.activeVoices = none :=
        Option.not_isSome_iff_eq_none.mp (by simp [hB])
      cases hOff : KEY_TO_OFFSET (upcase key) with
      | none =>
        rw [startNote_unmapped hOff, startNote_unmapped hOff]
      | some off =>
        have hm : keyToMidiAt st.octave key = some (12 * (st.octave + 1) + off) := by
          simp [keyToMidiAt, hOff]
        rw [startNote_fresh hN hm]
        exact startNote_active (by simp [findVoice_setVoice_self])
  · intro hN hSome
    obtain ⟨off, hOff⟩ := Option.isSome_iff_exists.mp hSome
    have hm : keyToMidiAt st.octave key = some (12 * (st.octave + 1) + off) := by
      simp [keyToMidiAt, hOff]
    rw [startNote_fresh hN hm, startNote_active (by simp [findVoice_setVoice_self])]
    exact countKey_setVoice_of_none _ hN

/-- C4, witness: pressing `A` twice from the initial state is the same as
pressing it once, and leaves exactly one active voice for `A`. -/
theorem C4_noteOn_idempotent_witness :
    startNote "A" stateA = stateA ∧
    countKey (upcase "A") (startNote "A" (startNote "A" initState)).activeVoices = 1 :=
  ⟨(C4_noteOn_idempotent "A" stateA).1 (by decide),
   (C4_noteOn_idempotent "A" initState).2.2 (by decide) (by decide)⟩

/-- C5: `allNotesOff` always empties the active-voice set and clears every
key highlight, whatever the prior sustain/recording state and whatever voices
were active, and `release` is invoked on every previously active voice. -/
theorem C5_allNotesOff_empties (st : PianoState) :
    (allNotesOff st).activeVoices = [] ∧ (allNotesOff st).downSet = [] ∧
    ∀ kv ∈ st.activeVoices, kv.2.release ∈ (allNotesOff st).releasedVoices := by
  refine ⟨rfl, rfl, fun kv hkv => ?_⟩
  exact List.mem_append_right _ (List.mem_map_of_mem _ hkv)

/-- C5, witness: evaluated on the state holding the voice for `A`. -/
theorem C5_allNotesOff_empties_witness :
    (allNotesOff stateA).activeVoices = [] ∧ (allNotesOff stateA).downSet = [] ∧
    voiceA.release ∈ (allNotesOff stateA).releasedVoices :=
  ⟨(C5_allNotesOff_empties stateA).1, (C5_allNotesOff_empties stateA).2.1,
   (C5_allNotesOff_empties stateA).2.2 ("A", voiceA) (by decide)⟩

/-- C6: a note-on for a key with no configured pitch offset is silently
ignored — the whole state is unchanged (no voice created, active set
untouched), and no error is possible since `startNote` is total. -/
theorem C6_unmapped_key_ignored (key : String) (st : PianoState)
    (h : KEY_TO_OFFSET (upcase key) = none) :
    startNote key st = st :=
  startNote_unmapped h

/-- C6, witness: the unmapped key `Z` from the initial state. -/
theorem C6_unmapped_key_ignored_witness :
    startNote "Z" initState = initState :=
  C6_unmapped_key_ignored "Z" initState (by decide)

/-- C7: changing octave, waveform or volume never alters an already-sounding
voice — the active-voice set (hence every voice's frequency, oscillator
waveform and volume) is exactly what it was — while a voice started after the
changes is built from the new configuration. -/
theorem C7_config_change_frame (st : PianoState) (o : ℤ) (w : Waveform) (vol : ℚ) :
    (setOctave o st).activeVoices = st.activeVoices ∧
    (setWaveform w st).activeVoices = st.activeVoices ∧
    (setVolume vol st).activeVoices = st.activeVoices ∧
    (∀ k, (findVoice k (setOctave o (setWaveform w (setVolume vol st))).activeVoices).map Voice.freq
        = (findVoice k st.activeVoices).map Voice.freq) ∧
    (∀ k, (findVoice k (setOctave o (setWaveform w (setVolume vol st))).activeVoices).map Voice.osc1Type
        = (findVoice k st.activeVoices).map Voice.osc1Type) ∧
    (∀ k, (findVoice k (setOctave o (setWaveform w (setVolume vol st))).activeVoices).map Voice.volume
        = (findVoice k st.activeVoices).map Voice.volume) ∧
    (∀ key m, findVoice (upcase key) st.activeVoices = none →
      keyToMidiAt o key = some m →
      findVoice (upcase key)
          (startNote key (setOctave o (setWaveform w (setVolume vol st)))).activeVoices
        = some (Voice.create m w vol)) := by
  refine ⟨rfl, rfl, rfl, fun k => rfl, fun k => rfl, fun k => rfl, fun key m h₁ h₂ => ?_⟩
  have h₁' : findVoice (upcase key)
      (setOctave o (setWaveform w (setVolume vol st))).activeVoices = none := h₁
  have h₂' : keyToMidiAt (setOctave o (setWaveform w (setVolume vol st))).octave key = some m := h₂
  rw [startNote_fresh h₁' h₂']
  simpa [setOctave, setWaveform, setVolume] using
    findVoice_setVoice_self (upcase key)
      (Voice.create m (setOctave o (setWaveform w (setVolume vol st))).waveform
        (setOctave o (setWaveform w (setVolume vol st))).volume)
      st.activeVoices

/-- C7, witness: after switching to octave 5, square wave and volume 1/2, a
fresh press of `A` starts a voice at midi 72 with the new waveform and
volume. -/
theorem C7_config_change_frame_witness :
    findVoice (upcase "A")
        (startNote "A"
          (setOctave 5 (setWaveform Waveform.square (setVolume halfVolume initState)))).activeVoices
      = some (Voice.create 72 Waveform.square halfVolume) :=
  (C7_config_change_frame initState 5 Waveform.square halfVolume).2.2.2.2.2.2 "A" 72
    (by decide) (by decide)

/-- C8: `startRecording` discards the previous session's events and clears the
start timestamp; a session of captures with non-decreasing capture times then
records the first event at offset exactly 0 and every event at its capture
time minus the first capture time, so the stored offsets are non-decreasing in
insertion order. -/
theorem C8_recording_reset_and_offsets (st : PianoState) (c₀ : Capture) (rest : List Capture)
    (hmono : List.Chain' (fun a b => a.now ≤ b.now) (c₀ :: rest)) :
    (startRecording st).recording = [] ∧
    (startRecording st).recordStart = none ∧
    (recordSession st (c₀ :: rest)).recording
      = (c₀ :: rest).map (fun c => ⟨upcase c.key, c.type, c.now - c₀.now, false⟩) ∧
    ((recordSession st (c₀ :: rest)).recording.head?.map RecEvent.t) = some 0 ∧
    List.Chain' (· ≤ ·) ((recordSession st (c₀ :: rest)).recording.map RecEvent.t) := by
  have hpush : pushRecord c₀.key c₀.type c₀.now (startRecording st)
      = { startRecording st with
          recordStart := some c₀.now
          recording := [⟨upcase c₀.key, c₀.type, c₀.now - c₀.now, false⟩] } := by
    simp [pushRecord, startRecording]
  have hmain : (recordSession st (c₀ :: rest)).recording
      = [⟨upcase c₀.key, c₀.type, c₀.now - c₀.now, false⟩]
        ++ rest.map (fun c => ⟨upcase c.key, c.type, c.now - c₀.now, false⟩) := by
    unfold recordSession
    rw [List.foldl_cons, hpush]
    exact (foldl_pushRecord_of_started c₀.now rest _ rfl).1
  refine ⟨rfl, rfl, ?_, ?_, ?_⟩
  · rw [hmain]
    simp
  · rw [hmain]
    simp
  · rw [hmain]
    have hoffs : ([(⟨upcase c₀.key, c₀.type, c₀.now - c₀.now, false⟩ : RecEvent)]
          ++ rest.map (fun c => (⟨upcase c.key, c.type, c.now - c₀.now, false⟩ : RecEvent))).map
            RecEvent.t
        = (c₀ :: rest).map (fun c => c.now - c₀.now) := by
      simp [List.map_map, Function.comp]
    rw [hoffs, List.chain'_map]
    exact hmono.imp fun a b h => sub_le_sub_right h c₀.now

/-- C8, witness: the session capturing `A` down at 100 and up at 300 yields
offsets 0 and 200. -/
theorem C8_recording_reset_and_offsets_witness :
    (startRecording initState).recording = [] ∧
    (startRecording initState).recordStart = none ∧
    (recordSession initState (captureA0 :: capturesRest)).recording
      = (captureA0 :: capturesRest).map
          (fun c => ⟨upcase c.key, c.type, c.now - captureA0.now, false⟩) ∧
    ((recordSession initState (captureA0 :: capturesRest)).recording.head?.map RecEvent.t)
      = some 0 ∧
    List.Chain' (· ≤ ·)
      ((recordSession initState (captureA0 :: capturesRest)).recording.map RecEvent.t) :=
  C8_recording_reset_and_offsets initState captureA0 capturesRest (by
    norm_num [List.chain'_cons, List.chain'_singleton, captureA0, capturesRest])

/-- C9: playback is single-shot — once every recorded event carries a set
`__scheduled` flag (as after a completed playback, the flags being assigned
only when falsy and never reset), a further `playRecording` dispatches
nothing. -/
theorem C9_playback_single_shot (st : PianoState) (checks checks₂ : List ℚ)
    (h : ∀ e ∈ (playRecording checks st).1.recording, e.scheduled = true) :
    (playRecording checks₂ (playRecording checks st).1).2 = [] :=
  playRecording_all_scheduled checks₂ _ h

/-- C9, witness: after a playback run that dispatches the single event of
`stateRec0`, a second invocation dispatches nothing. -/
theorem C9_playback_single_shot_witness :
    (playRecording [7] (playRecording [10] stateRec0).1).2 = [] :=
  C9_playback_single_shot stateRec0 [10] [7] (by
    norm_num [playRecording, runSched, schedPass, dispatchEvent, startNote, keyToMidiAt,
      KEY_TO_OFFSET, findVoice, setVoice, Voice.create, initState, stateRec0,
      show upcase "A" = "A" from by decide])

/-- C10: recording capture is not filtered by voice activity — while
recording, a keydown on a mapped key whose voice is already active still
appends a `down` event (offset = capture time minus session start) and leaves
the active-voice set unchanged, the no-op check living only in `startNote`. -/
theorem C10_capture_not_filtered (key : String) (now : ℚ) (st : PianoState)
    (hrec : st.isRecording = true)
    (hmap : (KEY_TO_OFFSET (upcase key)).isSome)
    (hactive : (findVoice (upcase key) st.activeVoices).isSome) :
    (handleDown key now st).recording
      = st.recording ++ [⟨upcase key, EvType.down, now - st.recordStart.getD now, false⟩] ∧
    (handleDown key now st).activeVoices = st.activeVoices := by
  have hsp : ¬(upcase key = " ") := by
    intro h
    rw [h] at hmap
    exact absurd hmap (by decide)
  have hrb : ¬(upcase key = "]") := by
    intro h
    rw [h] at hmap
    exact absurd hmap (by decide)
  have hlb : ¬(upcase key = "[") := by
    intro h
    rw [h] at hmap
    exact absurd hmap (by decide)
  constructor <;>
    simp [handleDown, hsp, hrb, hlb, hmap, hrec, startNote_active hactive, pushRecord]

/-- C10, witness: with recording on and the voice for `A` already active, a
keydown on `A` at time 100 appends a `down` event and leaves the active set
alone. -/
theorem C10_capture_not_filtered_witness :
    (handleDown "A" 100 stateARec).recording
      = stateARec.recording
        ++ [⟨upcase "A", EvType.down, 100 - stateARec.recordStart.getD 100, false⟩] ∧
    (handleDown "A" 100 stateARec).activeVoices = stateARec.activeVoices :=
  C10_capture_not_filtered "A" 100 stateARec (by decide) (by decide) (by decide)

end QwertyPiano
